import Mathlib

/-!
Verification of the rrdp repository core against its specification.

This file gives a shallow embedding, in Lean 4, of the parts of the rrdp
worker that the specification's claims are about:

* `hex_to_bin` from rpki-client/rrdp.c (hex digest parsing);
* `add_delta` and `check_state` from rpki-client/rrdp_notification.c
  (delta-list insertion and plan computation);
* the session failure fallback `rrdp_failed`, the `RRDP_HTTP_FIN` /
  `RRDP_FILE` input handling with its `done:` completion logic, and the
  per-stream read step of `proc_rrdp`, all from rpki-client/rrdp.c.

Modelling conventions: C `long long` values become `Int`; the C `int`
truncation of a `long long` (implementation-defined, two's complement in
practice) is modelled by `wrap32`; `unsigned int` decrement wraps modulo
2^32; C strings that may be NULL become `Option String` (the imsg string
codec delivers an empty wire string as NULL, so empty and absent
coincide); byte buffers become `List Nat`; the SHA-256 digest is an
arbitrary function parameter `sha : List Nat → List Nat` of the scheduler
step, and the XML parser's verdict on a chunk is a `Bool` parameter.
`errx(1, ...)` (worker-fatal) is the result `fatal`; freeing the session
and the set of queued outgoing messages are returned explicitly.
-/

namespace Rrdp

/-! ## hex_to_bin (rpki-client/rrdp.c, lines 96-127)

```
int hex_to_bin(const char *hexstr, char *buf, size_t len)
```
walks the string two characters at a time, converts each pair of hex
digits to a byte (`r = r << 4 | ch`, i.e. `16 * high + low`), stores it at
the next position if `pos < len`, and returns 0 at the terminating NUL or
-1 on a non-hex character (which includes the NUL of an odd-length
string) or when the buffer is full.  The buffer is a `List Nat` of length
`len`; `List.set` leaves the length unchanged, so every write is in
bounds by construction. -/

/-- The value of one hex digit per the `isdigit`/`islower`/`isupper`
cascade: after subtracting the base, any result above 0xf (a letter past
f/F) is rejected. -/
def hexDigitVal (c : Char) : Option Nat :=
  if '0' ≤ c ∧ c ≤ '9' then some (c.toNat - '0'.toNat)
  else if 'a' ≤ c ∧ c ≤ 'z' then
    let v := c.toNat - 'a'.toNat + 10
    if v > 15 then none else some v
  else if 'A' ≤ c ∧ c ≤ 'Z' then
    let v := c.toNat - 'A'.toNat + 10
    if v > 15 then none else some v
  else none

/-- One iteration of the `while (*hexstr)` loop, with `pos` the write
cursor.  A singleton remainder is an odd-length string: the second
character read is the terminating NUL, which fails the digit cascade. -/
def hexToBinGo : List Char → List Nat → Nat → Int × List Nat
  | [], buf, _ => (0, buf)
  | [_], buf, _ => (-1, buf)
  | c1 :: c2 :: rest, buf, pos =>
    match hexDigitVal c1, hexDigitVal c2 with
    | some h, some l =>
      if pos < buf.length then hexToBinGo rest (buf.set pos (16 * h + l)) (pos + 1)
      else (-1, buf)
    | _, _ => (-1, buf)

/-- Function `hex_to_bin hexstr buf` returns the C return value together with the
final contents of `buf`; the capacity `len` is `buf.length`. -/
def hex_to_bin (hexstr : List Char) (buf : List Nat) : Int × List Nat :=
  hexToBinGo hexstr buf 0

/-- The sequence of digit–pair values of a hex string (the bytes
`hex_to_bin` writes on success). -/
def hexBytes : List Char → Option (List Nat)
  | [] => some []
  | [_] => none
  | c1 :: c2 :: rest =>
    match hexDigitVal c1, hexDigitVal c2 with
    | some h, some l => (hexBytes rest).map (fun bs => (16 * h + l) :: bs)
    | _, _ => none

/-! ## Notification document model (rpki-client/rrdp_notification.c)

`struct notification_xml` holds the notification header
(`session_id`/`serial`, parsed by `start_notification_elem`), the prior
repository state (`current_session_id`/`current_serial`), the delta list
`delta_q`, the scope automaton position and the derived plan (`state`).
Serial attributes are parsed with `strtonum(.., 1, LLONG_MAX, ..)`. -/

/-- Truncation of a C `long long` to `int`, as two's complement
(implementation-defined in C, universally wrap-around in practice).
`check_state` stores `nxml->serial - nxml->current_serial` into the
`int serial_diff`, which is where this matters. -/
def wrap32 (z : Int) : Int := (z + 2147483648) % 4294967296 - 2147483648

/-- Structure `delta_item`: one `<delta>` reference. -/
structure DeltaItem where
  uri : String
  hash : String
  serial : Int
deriving DecidableEq, Repr

/-- Enumeration `notification_scope`, in declaration order (the numeric order is
used by the `scope <= NOTIFICATION_SCOPE_DELTA` early exit). -/
inductive NotificationScope
  | START
  | NOTIFICATION
  | SNAPSHOT
  | NOTIFICATION_POST_SNAPSHOT
  | DELTA
  | END
deriving DecidableEq, Repr

/-- The numeric value of a scope constant. -/
def scopeVal : NotificationScope → Nat
  | .START => 0
  | .NOTIFICATION => 1
  | .SNAPSHOT => 2
  | .NOTIFICATION_POST_SNAPSHOT => 3
  | .DELTA => 4
  | .END => 5

/-- Enumeration `notification_state`: the computed plan.  `SNAPSHOT` is the
declaration's value 0, hence the initial state of the `calloc`ed
structure. -/
inductive NotificationState
  | SNAPSHOT
  | DELTAS
  | NONE
  | ERROR
deriving DecidableEq, Repr

/-- Structure `notification_xml` (the parser handle is not modelled;
NULL-able strings are `Option String`). -/
structure NotificationXml where
  sessionId : Option String
  serial : Int
  currentSessionId : Option String
  currentSerial : Int
  version : Int
  deltaQ : List DeltaItem
  scope : NotificationScope
  state : NotificationState
deriving DecidableEq, Repr

/-! ### add_delta (rrdp_notification.c, lines 73-105)

```
n = TAILQ_LAST(&nxml->delta_q, delta_q);
if (!n || serial < n->serial) {
        TAILQ_FOREACH(n, &nxml->delta_q, q) {
                if (n->serial == serial) { warnx("duplicate ..."); return 0; }
                if (n->serial < serial) break;
        }
}
if (n) TAILQ_INSERT_AFTER(&nxml->delta_q, n, d, q);
else TAILQ_INSERT_HEAD(&nxml->delta_q, d, q);
```
The scan either hits a duplicate (return 0), breaks at the first node
with a smaller serial (insert after it), or runs off the end leaving
`n == NULL` (insert at the head).  When the new serial is not strictly
below the last node's, the scan is skipped entirely and the item is
appended after the last node. -/

/-- The `TAILQ_FOREACH` scan: `none` is the duplicate-return,
`some none` is `n == NULL` (insert at head of the whole queue), and
`some (some i)` means the loop broke at index `i` (insert after it). -/
def deltaScan (serial : Int) : List DeltaItem → Option (Option Nat)
  | [] => some none
  | n :: rest =>
    if n.serial = serial then none
    else if n.serial < serial then some (some 0)
    else
      match deltaScan serial rest with
      | none => none
      | some none => some none
      | some (some i) => some (some (i + 1))

/-- Function `add_delta`: here `none` models `return 0` (duplicate reported, the caller
raises a parse failure), `some q` the updated queue on `return 1`. -/
def add_delta (q : List DeltaItem) (uri hash : String) (serial : Int) :
    Option (List DeltaItem) :=
  let d : DeltaItem := ⟨uri, hash, serial⟩
  match q.getLast? with
  | none => some [d]
  | some last =>
    if serial < last.serial then
      match deltaScan serial q with
      | none => none
      | some none => some (d :: q)
      | some (some i) => some (q.take (i + 1) ++ d :: q.drop (i + 1))
    else some (q ++ [d])

/-- The delta part of `start_delta_elem` (lines 326-337): the element is
added only when `nxml->current_serial && nxml->current_serial <
delta_serial`; a failing `add_delta` is a parse failure (`none`). -/
def startDeltaElem (currentSerial : Int) (q : List DeltaItem)
    (uri hash : String) (serial : Int) : Option (List DeltaItem) :=
  if currentSerial ≠ 0 ∧ currentSerial < serial then add_delta q uri hash serial
  else some q

/-- Folding `start_delta_elem` over the `<delta>` elements of a document
in presentation order; `none` when any element caused a parse failure. -/
def buildDeltaQ (currentSerial : Int) :
    List (String × String × Int) → List DeltaItem → Option (List DeltaItem)
  | [], q => some q
  | (uri, hash, serial) :: rest, q =>
    match startDeltaElem currentSerial q uri hash serial with
    | none => none
    | some q' => buildDeltaQ currentSerial rest q'

/-! ### check_state (rrdp_notification.c, lines 116-184) -/

/-- The `TAILQ_FOREACH` walk of `check_state`: `serial_counter` is a C
`int`, incremented before the test
`nxml->current_serial + serial_counter != d->serial` (the addition
itself is in `long long`).  Returns the final counter, or `none` on the
first mismatch (fall back to snapshot). -/
def deltaWalk (currentSerial : Int) : List DeltaItem → Int → Option Int
  | [], counter => some counter
  | d :: rest, counter =>
    if currentSerial + wrap32 (counter + 1) ≠ d.serial then none
    else deltaWalk currentSerial rest (wrap32 (counter + 1))

/-- The delta-list inspection at the end of `check_state`: the walk
followed by the `serial_counter != serial_diff` count comparison
(`wrap32 (n.serial - n.currentSerial)` is the `int serial_diff`). -/
def planFromDeltas (n : NotificationXml) : NotificationState :=
  match deltaWalk n.currentSerial n.deltaQ 0 with
  | none => .SNAPSHOT
  | some counter =>
    if counter ≠ wrap32 (n.serial - n.currentSerial) then .SNAPSHOT else .DELTAS

/-- Function `check_state`, returning the new `nxml->state`.  `serial_diff` is a C
`int`, so the `long long` difference is truncated by `wrap32`. -/
def check_state (n : NotificationXml) : NotificationState :=
  if n.state = .ERROR ∨ n.state = .NONE then n.state
  else if n.currentSessionId = none ∨ n.currentSerial = 0 then .SNAPSHOT
  else if n.sessionId = none ∨ n.serial = 0 then .ERROR
  else if n.currentSessionId ≠ n.sessionId then .SNAPSHOT
  else if wrap32 (n.serial - n.currentSerial) = 0 then .NONE
  else if wrap32 (n.serial - n.currentSerial) < 0 then .ERROR
  else if scopeVal n.scope ≤ scopeVal .DELTA then n.state
  else planFromDeltas n

/-- The `notification_xml` record at the `check_state` call of
`start_notification_elem`: scope still `START`, no deltas yet, state at
its `calloc` value (`SNAPSHOT` is 0). -/
def nxmlAtStart (currentSessionId : Option String) (currentSerial : Int)
    (sessionId : String) (serial : Int) : NotificationXml :=
  { sessionId := some sessionId, serial := serial
    currentSessionId := currentSessionId, currentSerial := currentSerial
    version := 1, deltaQ := [], scope := .START, state := .SNAPSHOT }

/-- The record at the `check_state` call of `end_notification_elem`:
scope set to `END` just before the call, the delta list fully built, and
the state left by the start-element call (sticky `ERROR`/`NONE`). -/
def nxmlAtEnd (currentSessionId : Option String) (currentSerial : Int)
    (sessionId : String) (serial : Int) (deltas : List DeltaItem) :
    NotificationXml :=
  { sessionId := some sessionId, serial := serial
    currentSessionId := currentSessionId, currentSerial := currentSerial
    version := 1, deltaQ := deltas, scope := .END
    state := check_state (nxmlAtStart currentSessionId currentSerial sessionId serial) }

/-- The plan of a fully parsed notification: `check_state` runs twice
during a parse, from `start_notification_elem` and from
`end_notification_elem`, with the (sticky) result of the first call
carried into the second. -/
def notificationPlan (currentSessionId : Option String) (currentSerial : Int)
    (sessionId : String) (serial : Int) (deltas : List DeltaItem) :
    NotificationState :=
  check_state (nxmlAtEnd currentSessionId currentSerial sessionId serial deltas)

/-- Predicate `sortedGt lo q`: the serials of `q` are strictly ascending and all
strictly above `lo` (the shape `start_delta_elem` is meant to maintain:
sorted, and only serials above `repository.serial` kept). -/
def sortedGt : Int → List DeltaItem → Bool
  | _, [] => true
  | lo, d :: rest => decide (lo < d.serial) && sortedGt d.serial rest

/-- Helper `intRangeGo lo k` is `[lo, lo + 1, ..., lo + k - 1]`. -/
def intRangeGo (lo : Int) : Nat → List Int
  | 0 => []
  | k + 1 => lo :: intRangeGo (lo + 1) k

/-- The integer interval `[lo, hi]` as a list (empty when `hi < lo`):
the contiguous serial range of the specification. -/
def intRange (lo hi : Int) : List Int :=
  intRangeGo lo (hi + 1 - lo).toNat

/-! ## Session machinery (rpki-client/rrdp.c)

`struct rrdp` is modelled with the fields the claims depend on; the XML
handler objects `sxml`/`dxml` become presence flags, the SHA256 context
becomes the list of bytes fed so far, and the expected digest `hash` a
byte list.  Outgoing imsgs are returned explicitly; `errx(1, ...)` is the
worker-fatal outcome `fatal`. -/

/-- Enumeration `rrdp_task`. -/
inductive RrdpTask
  | NOTIFICATION
  | SNAPSHOT
  | DELTA
deriving DecidableEq, Repr

/-- Enumeration `rrdp_state` (the session phase). -/
inductive RrdpState
  | REQ
  | WAITING
  | PARSING
  | PARSED
  | ERROR
  | DONE
deriving DecidableEq, Repr

/-- The fields of `struct rrdp` used by the failure fallback, the input
handler and the stream read step. -/
structure RSession where
  id : Nat
  task : RrdpTask
  state : RrdpState
  status : Int
  filePending : Nat
  fileFailed : Nat
  ctx : List Nat
  hash : List Nat
  dxml : Bool
  sxml : Bool
deriving DecidableEq, Repr

/-- The messages the worker enqueues towards the parent (payloads beyond
what the claims mention are omitted). -/
inductive RrdpMsg
  | HTTP_REQ (id : Nat)
  | FILE (id : Nat)
  | SESSION (id : Nat)
  | END (id : Nat) (ok : Int)
deriving DecidableEq, Repr

/-- Outcome of one input-handler or stream step: the worker dies
(`errx`), the session survives in a new state, or the session was
`rrdp_free`d; in the last two cases the enqueued messages are listed in
order. -/
inductive HandlerResult
  | fatal
  | keep (s : RSession) (out : List RrdpMsg)
  | freed (out : List RrdpMsg)
deriving DecidableEq, Repr

/-- Function `rrdp_failed` (rrdp.c, lines 255-276): a failed DELTA task discards
the delta handler, installs a snapshot handler and rewinds the session to
`REQ`; any other failed task frees the session and reports
`END { ok = 0 }`. -/
def rrdp_failed (s : RSession) : HandlerResult :=
  if s.task = .DELTA then
    .keep { s with dxml := false, sxml := true, task := .SNAPSHOT, state := .REQ } []
  else .freed [.END s.id 0]

/-- The `done:` label of `rrdp_input_handler` (rrdp.c, lines 346-423).
`finalOk` is the verdict of the finalizing `XML_Parse(parser, NULL, 0,
1)`, `notifNext` the task returned by `notification_done` and
`deltaDone` the result of `notification_delta_done` (both functions live
outside this repository snapshot; they are inputs here).  Note the
guard `if (s->file_pending > 0) break;` that would defer completion is
compiled out under `#ifdef NOTYET`, so this logic runs regardless of
`file_pending`. -/
def input_handler_done (finalOk : Bool) (notifNext : RrdpTask)
    (deltaDone : Bool) (s : RSession) : HandlerResult :=
  if s.status = 200 then
    if ¬ finalOk then rrdp_failed s
    else if s.fileFailed > 0 then rrdp_failed s
    else
      match s.task with
      | .NOTIFICATION =>
        match notifNext with
        | .NOTIFICATION => .freed [.SESSION s.id, .END s.id 1]
        | .SNAPSHOT => .keep { s with task := .SNAPSHOT, sxml := true, state := .REQ } []
        | .DELTA => .keep { s with task := .DELTA, dxml := true, state := .REQ } []
      | .SNAPSHOT => .freed [.SESSION s.id, .END s.id 1]
      | .DELTA =>
        if deltaDone then .freed [.SESSION s.id, .END s.id 1]
        else .keep { s with dxml := true, state := .REQ } []
  else if s.status = 304 ∧ s.task = .NOTIFICATION then .freed [.END s.id 1]
  else rrdp_failed s

/-- The `RRDP_HTTP_FIN` case of `rrdp_input_handler` (rrdp.c, lines
317-424): a session still `PARSING` only gets a warning and then fails
the `state != PARSED` check (`errx`), `ERROR` takes the failure path,
`PARSED` records the status, moves to `DONE` and falls into the `done:`
logic. -/
def input_handler_http_fin (finalOk : Bool) (notifNext : RrdpTask)
    (deltaDone : Bool) (status : Int) (s : RSession) : HandlerResult :=
  if s.state = .ERROR then rrdp_failed s
  else if s.state = .PARSED then
    input_handler_done finalOk notifNext deltaDone
      { s with status := status, state := .DONE }
  else .fatal

/-- The `RRDP_FILE` case of `rrdp_input_handler` (rrdp.c, lines 425-435)
for a session that was found: `ok == 0` bumps `file_failed`,
`file_pending` is decremented (`unsigned int`, so a decrement from 0
wraps), and when the counter reaches 0 with the session in `DONE` the
handler jumps to `done:`. -/
def input_handler_file (finalOk : Bool) (notifNext : RrdpTask)
    (deltaDone : Bool) (ok : Int) (s : RSession) : HandlerResult :=
  let s1 := if ok = 0 then { s with fileFailed := s.fileFailed + 1 } else s
  let s2 := { s1 with filePending := (s1.filePending + 4294967295) % 4294967296 }
  if s2.filePending = 0 ∧ s2.state = .DONE then
    input_handler_done finalOk notifNext deltaDone s2
  else .keep s2 []

/-- Function `rrdp_get` (rrdp.c, lines 244-253): look a session up by id. -/
def rrdp_get (sessions : List RSession) (id : Nat) : Option RSession :=
  sessions.find? (fun s => s.id == id)

/-- The `RRDP_FILE` dispatch including the session lookup:
`if (s == NULL) errx(1, "rrdp session %zu does not exist", id);` makes an
acknowledgement for an unknown id fatal to the whole worker. -/
def input_handler_file_msg (finalOk : Bool) (notifNext : RrdpTask)
    (deltaDone : Bool) (sessions : List RSession) (id : Nat) (ok : Int) :
    HandlerResult :=
  match rrdp_get sessions id with
  | none => .fatal
  | some s => input_handler_file finalOk notifNext deltaDone ok s

/-- What `poll` reported for one session's stream in one scheduler
iteration: a read failure, a chunk of `len > 0` bytes, or EOF. -/
inductive ReadEvent
  | readFail
  | chunk (buf : List Nat)
  | eof
deriving DecidableEq, Repr

/-- The per-session stream service of `proc_rrdp` (rrdp.c, lines
514-567).  `sha` maps the bytes fed to the SHA256 context to the final
digest; `parseOk` is the verdict of `XML_Parse` on this chunk.  A read
error takes the failure path before any state check; EOF finalizes and
compares the digest for non-notification tasks and promotes `PARSING` to
`PARSED`; a chunk is hashed for non-notification tasks and then parsed
if the session is still `PARSING` (the source updates the hash first and
then parses; the branches here flatten that sequencing, with the parse
verdict only relevant in state `PARSING`). -/
def proc_stream_read (sha : List Nat → List Nat) (parseOk : Bool)
    (s : RSession) (ev : ReadEvent) : HandlerResult :=
  match ev with
  | .readFail => rrdp_failed s
  | .eof =>
    if s.state ≠ .PARSING ∧ s.state ≠ .ERROR then .fatal
    else if s.task ≠ .NOTIFICATION ∧ sha s.ctx ≠ s.hash then rrdp_failed s
    else if s.state = .PARSING then .keep { s with state := .PARSED } []
    else .keep s []
  | .chunk b =>
    if s.state ≠ .PARSING ∧ s.state ≠ .ERROR then .fatal
    else if s.state = .PARSING ∧ ¬ parseOk then
      if s.task ≠ .NOTIFICATION then
        .keep { s with ctx := s.ctx ++ b, state := .ERROR } []
      else .keep { s with state := .ERROR } []
    else
      if s.task ≠ .NOTIFICATION then .keep { s with ctx := s.ctx ++ b } []
      else .keep s []

/-! ## Helper lemmas -/

theorem wrap32_eq_self (z : Int) (h1 : -2147483648 ≤ z) (h2 : z < 2147483648) :
    wrap32 z = z := by
  have h3 : 0 ≤ z + 2147483648 := by omega
  have h4 : z + 2147483648 < 4294967296 := by omega
  rw [wrap32, Int.emod_eq_of_lt h3 h4]
  omega

theorem wrap32_npow : wrap32 2147483648 = -2147483648 := by decide

theorem intRange_eq_nil_iff (lo hi : Int) : intRange lo hi = [] ↔ hi < lo := by
  rw [intRange]
  constructor
  · intro h
    by_contra hlt
    have : (hi + 1 - lo).toNat = (hi - lo).toNat + 1 := by omega
    rw [this, intRangeGo] at h
    cases h
  · intro h
    have : (hi + 1 - lo).toNat = 0 := by omega
    rw [this, intRangeGo]

theorem intRange_cons (lo hi : Int) (h : lo ≤ hi) :
    intRange lo hi = lo :: intRange (lo + 1) hi := by
  rw [intRange, intRange]
  have h1 : (hi + 1 - lo).toNat = (hi + 1 - (lo + 1)).toNat + 1 := by omega
  rw [h1, intRangeGo]

/-- Once the `check_state` walk counter is strictly above the target
`serial_diff`, a strictly ascending delta list can never bring it back:
the walk either mismatches or ends with a larger counter. -/
theorem deltaWalk_gt (cur diff : Int) (hd : 0 ≤ diff) :
    ∀ (q : List DeltaItem) (c : Int), diff < c → c < 2147483648 →
      sortedGt (cur + c) q = true → deltaWalk cur q c ≠ some diff := by
  intro q
  induction q with
  | nil =>
    intro c h1 _ _ hsome
    simp only [deltaWalk, Option.some.injEq] at hsome
    omega
  | cons d rest ih =>
    intro c h1 h2 h3 hsome
    simp only [sortedGt, Bool.and_eq_true, decide_eq_true_eq] at h3
    obtain ⟨hlt, hrest⟩ := h3
    by_cases hcb : c + 1 = 2147483648
    · have hw : wrap32 (c + 1) = -2147483648 := by rw [hcb]; exact wrap32_npow
      have hne : cur + wrap32 (c + 1) ≠ d.serial := by rw [hw]; omega
      simp only [deltaWalk, if_pos hne] at hsome
      cases hsome
    · have hw : wrap32 (c + 1) = c + 1 := wrap32_eq_self _ (by omega) (by omega)
      simp only [deltaWalk, hw] at hsome
      by_cases heq : cur + (c + 1) = d.serial
      · rw [if_neg (not_not_intro heq)] at hsome
        have hrest' : sortedGt (cur + (c + 1)) rest = true := by
          rw [heq]; exact hrest
        exact ih (c + 1) (by omega) (by omega) hrest' hsome
      · rw [if_pos heq] at hsome
        cases hsome

/-- Characterization of the `check_state` walk on a strictly ascending
delta list: starting from counter `c`, it ends with counter exactly
`diff` iff the serials are precisely the contiguous range
`cur + c + 1 … cur + diff`. -/
theorem deltaWalk_range (cur diff : Int) (hd0 : 0 < diff)
    (hd1 : diff < 2147483648) :
    ∀ (q : List DeltaItem) (c : Int), 0 ≤ c → c ≤ diff →
      sortedGt (cur + c) q = true →
      (deltaWalk cur q c = some diff ↔
        q.map (fun d => d.serial) = intRange (cur + c + 1) (cur + diff)) := by
  intro q
  induction q with
  | nil =>
    intro c _ h1 _
    simp only [deltaWalk, List.map_nil, Option.some.injEq]
    constructor
    · intro h
      symm
      exact (intRange_eq_nil_iff _ _).mpr (by omega)
    · intro h
      have := (intRange_eq_nil_iff (cur + c + 1) (cur + diff)).mp h.symm
      omega
  | cons d rest ih =>
    intro c h0 h1 h3
    simp only [sortedGt, Bool.and_eq_true, decide_eq_true_eq] at h3
    obtain ⟨hlt, hrest⟩ := h3
    by_cases hcd : c = diff
    · subst hcd
      have hnil : intRange (cur + c + 1) (cur + c) = [] :=
        (intRange_eq_nil_iff _ _).mpr (by omega)
      rw [hnil]
      simp only [List.map_cons]
      constructor
      · intro hsome
        exfalso
        by_cases hcb : c + 1 = 2147483648
        · have hw : wrap32 (c + 1) = -2147483648 := by rw [hcb]; exact wrap32_npow
          have hne : cur + wrap32 (c + 1) ≠ d.serial := by rw [hw]; omega
          simp only [deltaWalk, if_pos hne] at hsome
          cases hsome
        · have hw : wrap32 (c + 1) = c + 1 := wrap32_eq_self _ (by omega) (by omega)
          simp only [deltaWalk, hw] at hsome
          by_cases heq : cur + (c + 1) = d.serial
          · rw [if_neg (not_not_intro heq)] at hsome
            have hrest' : sortedGt (cur + (c + 1)) rest = true := by
              rw [heq]; exact hrest
            exact deltaWalk_gt cur c (by omega) rest (c + 1) (by omega) (by omega)
              hrest' hsome
          · rw [if_pos heq] at hsome
            cases hsome
      · intro h
        cases h
    · have hc1 : c + 1 ≤ diff := by omega
      have hw : wrap32 (c + 1) = c + 1 := wrap32_eq_self _ (by omega) (by omega)
      rw [intRange_cons _ _ (by omega)]
      simp only [deltaWalk, hw, List.map_cons]
      by_cases heq : cur + (c + 1) = d.serial
      · rw [if_neg (not_not_intro heq)]
        have hrest' : sortedGt (cur + (c + 1)) rest = true := by
          rw [heq]; exact hrest
        have hih := ih (c + 1) (by omega) hc1 hrest'
        have hrw : cur + (c + 1) + 1 = cur + c + 1 + 1 := by ring
        rw [hrw] at hih
        rw [hih, List.cons.injEq]
        constructor
        · intro h
          exact ⟨by omega, h⟩
        · intro h
          exact h.2
      · rw [if_pos heq]
        simp only [List.cons.injEq]
        constructor
        · intro h
          cases h
        · intro h
          exfalso
          have := h.1
          omega

theorem check_state_snapshot_absent (n : NotificationXml)
    (h1 : n.state ≠ .ERROR) (h2 : n.state ≠ .NONE)
    (h3 : n.currentSessionId = none ∨ n.currentSerial = 0) :
    check_state n = .SNAPSHOT := by
  rw [check_state, if_neg (not_or.mpr ⟨h1, h2⟩), if_pos h3]

theorem check_state_snapshot_newsession (n : NotificationXml)
    (h1 : n.state ≠ .ERROR) (h2 : n.state ≠ .NONE)
    (h3 : ¬(n.currentSessionId = none ∨ n.currentSerial = 0))
    (h4 : ¬(n.sessionId = none ∨ n.serial = 0))
    (h5 : n.currentSessionId ≠ n.sessionId) :
    check_state n = .SNAPSHOT := by
  rw [check_state, if_neg (not_or.mpr ⟨h1, h2⟩), if_neg h3, if_neg h4, if_pos h5]

theorem check_state_none_of_zero_diff (n : NotificationXml)
    (h1 : n.state ≠ .ERROR) (h2 : n.state ≠ .NONE)
    (h3 : ¬(n.currentSessionId = none ∨ n.currentSerial = 0))
    (h4 : ¬(n.sessionId = none ∨ n.serial = 0))
    (h5 : ¬ n.currentSessionId ≠ n.sessionId)
    (h6 : wrap32 (n.serial - n.currentSerial) = 0) :
    check_state n = .NONE := by
  rw [check_state, if_neg (not_or.mpr ⟨h1, h2⟩), if_neg h3, if_neg h4, if_neg h5,
    if_pos h6]

theorem check_state_deferred (n : NotificationXml)
    (h1 : n.state ≠ .ERROR) (h2 : n.state ≠ .NONE)
    (h3 : ¬(n.currentSessionId = none ∨ n.currentSerial = 0))
    (h4 : ¬(n.sessionId = none ∨ n.serial = 0))
    (h5 : ¬ n.currentSessionId ≠ n.sessionId)
    (h6 : ¬ wrap32 (n.serial - n.currentSerial) = 0)
    (h7 : ¬ wrap32 (n.serial - n.currentSerial) < 0)
    (h8 : scopeVal n.scope ≤ scopeVal .DELTA) :
    check_state n = n.state := by
  rw [check_state, if_neg (not_or.mpr ⟨h1, h2⟩), if_neg h3, if_neg h4, if_neg h5,
    if_neg h6, if_neg h7, if_pos h8]

theorem check_state_walk (n : NotificationXml)
    (h1 : n.state ≠ .ERROR) (h2 : n.state ≠ .NONE)
    (h3 : ¬(n.currentSessionId = none ∨ n.currentSerial = 0))
    (h4 : ¬(n.sessionId = none ∨ n.serial = 0))
    (h5 : ¬ n.currentSessionId ≠ n.sessionId)
    (h6 : ¬ wrap32 (n.serial - n.currentSerial) = 0)
    (h7 : ¬ wrap32 (n.serial - n.currentSerial) < 0)
    (h8 : ¬ scopeVal n.scope ≤ scopeVal .DELTA) :
    check_state n = planFromDeltas n := by
  rw [check_state, if_neg (not_or.mpr ⟨h1, h2⟩), if_neg h3, if_neg h4, if_neg h5,
    if_neg h6, if_neg h7, if_neg h8]

/-- On a strictly ascending delta list with all serials above
`current_serial`, the walk-and-count block of `check_state` yields
`DELTAS` exactly for the contiguous range
`current_serial + 1 … serial`. -/
theorem planFromDeltas_spec (n : NotificationXml)
    (hd0 : 0 < n.serial - n.currentSerial)
    (hd1 : n.serial - n.currentSerial < 2147483648)
    (hsorted : sortedGt n.currentSerial n.deltaQ = true) :
    planFromDeltas n =
      if n.deltaQ.map (fun d => d.serial) = intRange (n.currentSerial + 1) n.serial
      then .DELTAS else .SNAPSHOT := by
  have hwd : wrap32 (n.serial - n.currentSerial) = n.serial - n.currentSerial :=
    wrap32_eq_self _ (by omega) hd1
  have hwalk := deltaWalk_range n.currentSerial (n.serial - n.currentSerial) hd0 hd1
    n.deltaQ 0 le_rfl (by omega) (by simpa using hsorted)
  have he1 : n.currentSerial + 0 + 1 = n.currentSerial + 1 := by ring
  have he2 : n.currentSerial + (n.serial - n.currentSerial) = n.serial := by ring
  rw [he1, he2] at hwalk
  by_cases hm : n.deltaQ.map (fun d => d.serial) = intRange (n.currentSerial + 1) n.serial
  · rw [if_pos hm, planFromDeltas, hwalk.mpr hm]
    simp [hwd]
  · rw [if_neg hm, planFromDeltas]
    cases hw2 : deltaWalk n.currentSerial n.deltaQ 0 with
    | none => simp
    | some counter =>
      have hne : counter ≠ n.serial - n.currentSerial := by
        intro hc
        exact hm (hwalk.mp (by rw [hw2, hc]))
      simp [hwd, hne]

/-! ## Claim theorems -/

/-- C1 (amended).  For every prior repository state (serial
non-negative, absent session modelled as `none`; the imsg string codec
turns an empty wire string into NULL, so empty and absent coincide) and
every fully parsed notification (serial in `[1, 2^63-1]` by `strtonum`,
delta list strictly ascending with all serials above
`repository.serial`) whose serial difference is below `2^31` (the code
computes `serial_diff` in a C `int`, so larger differences truncate —
see the counterexample), `check_state` computes the plan per the
reference definition: absent session id or zero serial gives SNAPSHOT, a
changed session id gives SNAPSHOT, and when `notification.serial`
exceeds `repository.serial` the plan is DELTAS exactly when the delta
list is the contiguous range `repository.serial + 1 …
notification.serial`, SNAPSHOT on any gap or count mismatch. -/
theorem check_state_reference_plan
    (curSid : Option String) (curSerial : Int) (sid : String) (serial : Int)
    (deltas : List DeltaItem)
    (hser : 1 ≤ serial) (hcur : 0 ≤ curSerial)
    (hdiff : serial - curSerial < 2147483648)
    (hsorted : sortedGt curSerial deltas = true) :
    ((curSid = none ∨ curSerial = 0) →
        notificationPlan curSid curSerial sid serial deltas = .SNAPSHOT)
    ∧ (∀ cs, curSid = some cs → cs ≠ sid →
        notificationPlan curSid curSerial sid serial deltas = .SNAPSHOT)
    ∧ (∀ cs, curSid = some cs → cs = sid → curSerial ≠ 0 → curSerial < serial →
        notificationPlan curSid curSerial sid serial deltas =
          if deltas.map (fun d => d.serial) = intRange (curSerial + 1) serial
          then .DELTAS else .SNAPSHOT) := by
  refine ⟨?_, ?_, ?_⟩
  · intro h
    have hinner : check_state (nxmlAtStart curSid curSerial sid serial) = .SNAPSHOT :=
      check_state_snapshot_absent _ (by simp [nxmlAtStart]) (by simp [nxmlAtStart])
        (by simpa [nxmlAtStart] using h)
    exact check_state_snapshot_absent _ (by simp [nxmlAtEnd, hinner])
      (by simp [nxmlAtEnd, hinner]) (by simpa [nxmlAtEnd] using h)
  · intro cs hcs hne
    subst hcs
    by_cases hz : curSerial = 0
    · have hinner : check_state (nxmlAtStart (some cs) curSerial sid serial) = .SNAPSHOT :=
        check_state_snapshot_absent _ (by simp [nxmlAtStart]) (by simp [nxmlAtStart])
          (by simp [nxmlAtStart, hz])
      exact check_state_snapshot_absent _ (by simp [nxmlAtEnd, hinner])
        (by simp [nxmlAtEnd, hinner]) (by simp [nxmlAtEnd, hz])
    · have hinner : check_state (nxmlAtStart (some cs) curSerial sid serial) = .SNAPSHOT :=
        check_state_snapshot_newsession _ (by simp [nxmlAtStart]) (by simp [nxmlAtStart])
          (by simp [nxmlAtStart, hz]) (by simp [nxmlAtStart]; omega)
          (by simp [nxmlAtStart, hne])
      exact check_state_snapshot_newsession _ (by simp [nxmlAtEnd, hinner])
        (by simp [nxmlAtEnd, hinner]) (by simp [nxmlAtEnd, hz])
        (by simp [nxmlAtEnd]; omega) (by simp [nxmlAtEnd, hne])
  · intro cs hcs hcssid hz hlt
    subst hcssid
    subst hcs
    have hwd : wrap32 (serial - curSerial) = serial - curSerial :=
      wrap32_eq_self _ (by omega) (by omega)
    have h6 : ¬ wrap32 (serial - curSerial) = 0 := by rw [hwd]; omega
    have h7 : ¬ wrap32 (serial - curSerial) < 0 := by rw [hwd]; omega
    have hinner : check_state (nxmlAtStart (some cs) curSerial cs serial) = .SNAPSHOT := by
      have := check_state_deferred (nxmlAtStart (some cs) curSerial cs serial)
        (by simp [nxmlAtStart]) (by simp [nxmlAtStart]) (by simp [nxmlAtStart, hz])
        (by simp [nxmlAtStart]; omega) (by simp [nxmlAtStart]) h6 h7
        (by simp [nxmlAtStart, scopeVal])
      simpa [nxmlAtStart] using this
    have houter := check_state_walk (nxmlAtEnd (some cs) curSerial cs serial deltas)
      (by simp [nxmlAtEnd, hinner]) (by simp [nxmlAtEnd, hinner])
      (by simp [nxmlAtEnd, hz]) (by simp [nxmlAtEnd]; omega) (by simp [nxmlAtEnd])
      h6 h7 (by simp [nxmlAtEnd, scopeVal])
    have hplan := planFromDeltas_spec (nxmlAtEnd (some cs) curSerial cs serial deltas)
      (by simp [nxmlAtEnd]; omega) (by simp [nxmlAtEnd]; omega)
      (by simpa [nxmlAtEnd] using hsorted)
    rw [notificationPlan, houter, hplan]
    simp [nxmlAtEnd]

/-- Witness for C1: prior state (session "A", serial 2), notification
(session "A", serial 4) with deltas 3 and 4: the reference definition
applies and yields DELTAS. -/
theorem check_state_reference_plan_witness :
    notificationPlan (some "A") 2 "A" 4 [⟨"u3", "h3", 3⟩, ⟨"u4", "h4", 4⟩] =
      .DELTAS := by
  have h := (check_state_reference_plan (some "A") 2 "A" 4
    [⟨"u3", "h3", 3⟩, ⟨"u4", "h4", 4⟩] (by decide) (by decide) (by decide)
    (by decide)).2.2 "A" rfl rfl (by decide) (by decide)
  rw [h]
  rfl

/-- Counterexample to C1 as stated.  With repository serial 1 and
notification serial 2^32 + 1 (both in the 64-bit serial range), the
notification serial exceeds the repository serial and the (empty) delta
list is not the contiguous range `2 … 2^32 + 1`, so the claimed
reference definition requires SNAPSHOT; the code stores the difference
2^32 into the `int serial_diff`, truncating it to 0, and returns NONE
(up to date). -/
theorem check_state_wrap_counterexample :
    notificationPlan (some "A") 1 "A" 4294967297 [] = .NONE ∧
    ((1 : Int) < 4294967297) ∧
    ([] : List DeltaItem).map (fun d => d.serial) ≠ intRange 2 4294967297 ∧
    notificationPlan (some "A") 1 "A" 4294967297 [] ≠ .SNAPSHOT := by
  have h1 : notificationPlan (some "A") 1 "A" 4294967297 [] = .NONE := by decide
  refine ⟨h1, by norm_num, ?_, by rw [h1]; decide⟩
  intro h
  have := (intRange_eq_nil_iff 2 4294967297).mp (by simpa using h.symm)
  omega

/-- C3.  `check_state` does not compute the serial difference in 64-bit
arithmetic: `serial_diff` is a C `int`.  At repository serial 2^32 + 1
and notification serial 1 the difference is -2^32 < 0, so the claim
requires plan ERROR; the truncated difference is 0 and the code returns
NONE, i.e. it reports a repository that is 2^32 serials ahead as up to
date. -/
theorem check_state_serial_wrap_bug :
    notificationPlan (some "A") 4294967297 "A" 1 [] = .NONE ∧
    ((1 : Int) - 4294967297 < 0) ∧
    NotificationState.NONE ≠ NotificationState.ERROR := by
  refine ⟨by decide, by norm_num, by decide⟩

/-- C4.  A `<delta>` whose serial duplicates the current maximum is not
rejected: `add_delta` only runs its duplicate scan when the new serial
is strictly below the last element's, so the second delta with serial 11
is appended after the first and the element parses successfully (no
parse failure).  A duplicate that is not the maximum (the trailing 11
after 11, 12) does take the scan path and is rejected, which shows the
accept is a slip rather than a policy. -/
theorem add_delta_duplicate_max_accepted :
    add_delta [⟨"u1", "h1", 11⟩] "u2" "h2" 11 =
      some [⟨"u1", "h1", 11⟩, ⟨"u2", "h2", 11⟩] ∧
    buildDeltaQ 10 [("u1", "h1", 11), ("u2", "h2", 11)] [] =
      some [⟨"u1", "h1", 11⟩, ⟨"u2", "h2", 11⟩] ∧
    buildDeltaQ 10 [("u1", "h1", 11), ("u2", "h2", 12), ("u3", "h3", 11)] [] =
      none := by
  refine ⟨by decide, by decide, by decide⟩

/-- C9.  Plan computation is not order-independent.  With repository
serial 4 and notification serial 8, presenting the deltas 5, 6, 7, 8 in
ascending order builds the sorted list and yields DELTAS, but presenting
the same set as 5, 6, 8, 7 makes `add_delta`'s scan break at the first
smaller element (5) and insert 7 right after it, producing the unsorted
list 5, 7, 6, 8, whose walk fails, so the plan becomes SNAPSHOT. -/
theorem add_delta_order_dependent_plan :
    buildDeltaQ 4 [("a", "b", 5), ("c", "d", 6), ("e", "f", 7), ("g", "h", 8)] [] =
      some [⟨"a", "b", 5⟩, ⟨"c", "d", 6⟩, ⟨"e", "f", 7⟩, ⟨"g", "h", 8⟩] ∧
    buildDeltaQ 4 [("a", "b", 5), ("c", "d", 6), ("e", "f", 8), ("g", "h", 7)] [] =
      some [⟨"a", "b", 5⟩, ⟨"g", "h", 7⟩, ⟨"c", "d", 6⟩, ⟨"e", "f", 8⟩] ∧
    notificationPlan (some "A") 4 "A" 8
      [⟨"a", "b", 5⟩, ⟨"c", "d", 6⟩, ⟨"e", "f", 7⟩, ⟨"g", "h", 8⟩] = .DELTAS ∧
    notificationPlan (some "A") 4 "A" 8
      [⟨"a", "b", 5⟩, ⟨"g", "h", 7⟩, ⟨"c", "d", 6⟩, ⟨"e", "f", 8⟩] = .SNAPSHOT := by
  refine ⟨by decide, by decide, by decide, by decide⟩

/-- A chunk read in state `PARSING` or `ERROR` with a non-notification
task always appends the bytes to the hash context and keeps the session,
with the phase either unchanged or demoted to `ERROR`. -/
theorem proc_stream_chunk_hashes (sha : List Nat → List Nat) (parseOk : Bool)
    (s : RSession) (b : List Nat)
    (hstate : s.state = .PARSING ∨ s.state = .ERROR)
    (ht : s.task ≠ .NOTIFICATION) :
    ∃ st, (st = .PARSING ∨ st = .ERROR) ∧
      proc_stream_read sha parseOk s (.chunk b) =
        .keep { s with ctx := s.ctx ++ b, state := st } [] := by
  have hns : ¬(s.state ≠ .PARSING ∧ s.state ≠ .ERROR) := by
    rcases hstate with h | h <;> simp [h]
  by_cases hpe : s.state = .PARSING ∧ ¬ parseOk
  · exact ⟨.ERROR, Or.inr rfl, by
      rw [proc_stream_read, if_neg hns, if_pos hpe, if_pos ht]⟩
  · refine ⟨s.state, hstate, ?_⟩
    rw [proc_stream_read, if_neg hns, if_neg hpe, if_pos ht]

/-- EOF in state `PARSING` or `ERROR` with a non-notification task and a
digest that does not match `s->hash` takes the failure path. -/
theorem proc_stream_eof_mismatch (sha : List Nat → List Nat) (parseOk : Bool)
    (s : RSession)
    (hstate : s.state = .PARSING ∨ s.state = .ERROR)
    (ht : s.task ≠ .NOTIFICATION)
    (hsha : sha s.ctx ≠ s.hash) :
    proc_stream_read sha parseOk s .eof = rrdp_failed s := by
  have hns : ¬(s.state ≠ .PARSING ∧ s.state ≠ .ERROR) := by
    rcases hstate with h | h <;> simp [h]
  rw [proc_stream_read, if_neg hns, if_pos ⟨ht, hsha⟩]

/-- C5.  The failure fallback: a failed DELTA task discards the delta
handler, installs a snapshot handler and returns the session to phase
REQ with task SNAPSHOT; a second failure of that session (its task now
SNAPSHOT) frees it and sends `END { ok = 0 }`, so a delta-phase error
leads to exactly one snapshot attempt before giving up.  A failed
NOTIFICATION or SNAPSHOT task frees the session and sends
`END { ok = 0 }` directly. -/
theorem rrdp_failed_fallback (s : RSession) :
    (s.task = .DELTA →
      rrdp_failed s =
        .keep { s with dxml := false, sxml := true, task := .SNAPSHOT, state := .REQ } [] ∧
      rrdp_failed { s with dxml := false, sxml := true, task := .SNAPSHOT, state := .REQ } =
        .freed [.END s.id 0])
    ∧ ((s.task = .NOTIFICATION ∨ s.task = .SNAPSHOT) →
      rrdp_failed s = .freed [.END s.id 0]) := by
  constructor
  · intro h
    constructor
    · rw [rrdp_failed, if_pos h]
    · rw [rrdp_failed, if_neg (by simp)]
  · intro h
    rw [rrdp_failed, if_neg (by rcases h with h | h <;> simp [h])]

/-- Witness for C5: a concrete DELTA session falls back to one snapshot
attempt and a second failure ends the session with ok=0. -/
theorem rrdp_failed_fallback_witness :
    rrdp_failed
      { id := 5, task := .DELTA, state := .PARSED, status := 200, filePending := 0,
        fileFailed := 0, ctx := [], hash := [], dxml := true, sxml := false } =
      .keep
        { id := 5, task := .SNAPSHOT, state := .REQ, status := 200, filePending := 0,
          fileFailed := 0, ctx := [], hash := [], dxml := false, sxml := true } [] ∧
    rrdp_failed
      { id := 5, task := .SNAPSHOT, state := .REQ, status := 200, filePending := 0,
        fileFailed := 0, ctx := [], hash := [], dxml := false, sxml := true } =
      .freed [.END 5 0] := by
  have h := (rrdp_failed_fallback
    { id := 5, task := .DELTA, state := .PARSED, status := 200, filePending := 0,
      fileFailed := 0, ctx := [], hash := [], dxml := true, sxml := false }).1 rfl
  exact ⟨h.1, h.2⟩

/-- C7.  A NOTIFICATION fetch concluding with HTTP status 304 ends the
session with `END { ok = 1 }` and frees it; the emitted message list is
exactly that END, so no FILE and no SESSION message is sent (no
repository state is persisted). -/
theorem notification_304_success (finalOk : Bool) (notifNext : RrdpTask)
    (deltaDone : Bool) (s : RSession)
    (htask : s.task = .NOTIFICATION) (hstate : s.state = .PARSED) :
    input_handler_http_fin finalOk notifNext deltaDone 304 s =
      .freed [.END s.id 1] := by
  rw [input_handler_http_fin, if_neg (by simp [hstate]), if_pos hstate,
    input_handler_done.eq_def, if_neg (by simp), if_pos (by simp [htask])]

/-- Witness for C7: a concrete parsed NOTIFICATION session receiving a
304 yields exactly `END { ok = 1 }`. -/
theorem notification_304_success_witness :
    input_handler_http_fin true .NOTIFICATION false 304
      { id := 2, task := .NOTIFICATION, state := .PARSED, status := 0,
        filePending := 0, fileFailed := 0, ctx := [], hash := [],
        dxml := false, sxml := false } =
      .freed [.END 2 1] :=
  notification_304_success true .NOTIFICATION false _ rfl rfl

/-- C2 fails on the code: the deferral guard
`if (s->file_pending > 0) break;` is compiled out under `#ifdef NOTYET`,
so a snapshot session whose stream already hit EOF (state `PARSED`) and
whose `HTTP_FIN` arrives with status 200 runs the completion logic at
once and emits `SESSION` and `END { ok = 1 }` even though
`file_pending = 1`, i.e. with a file event still unacknowledged. -/
theorem http_fin_completes_with_pending_files :
    input_handler_http_fin true .NOTIFICATION false 200
      { id := 3, task := .SNAPSHOT, state := .PARSED, status := 0, filePending := 1,
        fileFailed := 0, ctx := [], hash := [], dxml := false, sxml := true } =
      .freed [.SESSION 3, .END 3 1] := by decide

/-- C8 fails on the code: an `RRDP_FILE` acknowledgement whose id
matches no live session hits
`errx(1, "rrdp session %zu does not exist", id)` and kills the whole
worker instead of being tolerated. -/
theorem file_ack_unknown_session_fatal :
    input_handler_file_msg true .NOTIFICATION false
      [{ id := 3, task := .SNAPSHOT, state := .PARSING, status := 0, filePending := 2,
         fileFailed := 0, ctx := [], hash := [], dxml := false, sxml := true }] 7 1 =
      .fatal := by decide

/-- C6.  Hash discipline in the stream loop of `proc_rrdp`: every byte
read from a SNAPSHOT/DELTA stream is appended to the hash context (also
while draining in state ERROR), no byte of a NOTIFICATION stream is, and
at EOF of a SNAPSHOT/DELTA stream a finalized digest different from
`expected_hash` takes the failure path — in particular a body whose
digest differs from the expected one (e.g. one flipped byte) fails the
fetch. -/
theorem stream_hash_discipline (sha : List Nat → List Nat) (parseOk : Bool)
    (s : RSession) (b : List Nat)
    (hstate : s.state = .PARSING ∨ s.state = .ERROR) :
    ((s.task = .SNAPSHOT ∨ s.task = .DELTA) →
      ∃ st, proc_stream_read sha parseOk s (.chunk b) =
        .keep { s with ctx := s.ctx ++ b, state := st } [])
    ∧ (s.task = .NOTIFICATION →
      ∃ st, proc_stream_read sha parseOk s (.chunk b) =
        .keep { s with state := st } [])
    ∧ ((s.task = .SNAPSHOT ∨ s.task = .DELTA) → sha s.ctx ≠ s.hash →
      proc_stream_read sha parseOk s .eof = rrdp_failed s)
    ∧ ((s.task = .SNAPSHOT ∨ s.task = .DELTA) → s.ctx = [] →
      ∀ body : List Nat, sha body ≠ s.hash →
      ∃ st, proc_stream_read sha parseOk s (.chunk body) =
          .keep { s with ctx := body, state := st } [] ∧
        proc_stream_read sha parseOk { s with ctx := body, state := st } .eof =
          rrdp_failed { s with ctx := body, state := st }) := by
  have htne : (s.task = .SNAPSHOT ∨ s.task = .DELTA) → s.task ≠ .NOTIFICATION := by
    rintro (h | h) <;> simp [h]
  have hns : ¬(s.state ≠ .PARSING ∧ s.state ≠ .ERROR) := by
    rcases hstate with h | h <;> simp [h]
  refine ⟨?_, ?_, ?_, ?_⟩
  · intro ht
    obtain ⟨st, _, heq⟩ := proc_stream_chunk_hashes sha parseOk s b hstate (htne ht)
    exact ⟨st, heq⟩
  · intro ht
    have ht' : ¬ s.task ≠ .NOTIFICATION := not_not_intro ht
    by_cases hpe : s.state = .PARSING ∧ ¬ parseOk
    · exact ⟨.ERROR, by rw [proc_stream_read, if_neg hns, if_pos hpe, if_neg ht']⟩
    · exact ⟨s.state, by rw [proc_stream_read, if_neg hns, if_neg hpe, if_neg ht']⟩
  · intro ht hsha
    exact proc_stream_eof_mismatch sha parseOk s hstate (htne ht) hsha
  · intro ht hctx body hsha
    obtain ⟨st, hst, heq⟩ := proc_stream_chunk_hashes sha parseOk s body hstate (htne ht)
    rw [hctx] at heq
    refine ⟨st, by simpa using heq, ?_⟩
    exact proc_stream_eof_mismatch sha parseOk _ (by simpa using hst)
      (by simpa using htne ht) (by simpa using hsha)

/-- Witness for C6: a concrete snapshot session in state PARSING whose
context holds the body bytes `[1, 2]`, with the identity map standing in
for the digest function, fails at EOF since the digest `[1, 2]` differs
from the expected `[9]`. -/
theorem stream_hash_discipline_witness :
    proc_stream_read (fun l => l) true
      { id := 1, task := .SNAPSHOT, state := .PARSING, status := 0, filePending := 0,
        fileFailed := 0, ctx := [1, 2], hash := [9], dxml := false, sxml := true }
      .eof =
      rrdp_failed
        { id := 1, task := .SNAPSHOT, state := .PARSING, status := 0, filePending := 0,
          fileFailed := 0, ctx := [1, 2], hash := [9], dxml := false, sxml := true } :=
  (stream_hash_discipline (fun l => l) true
    { id := 1, task := .SNAPSHOT, state := .PARSING, status := 0, filePending := 0,
      fileFailed := 0, ctx := [1, 2], hash := [9], dxml := false, sxml := true }
    [] (Or.inl rfl)).2.2.1 (Or.inl rfl) (by decide)

theorem take_set_succ : ∀ (l : List Nat) (pos : Nat) (v : Nat),
    pos < l.length → (l.set pos v).take (pos + 1) = l.take pos ++ [v]
  | [], pos, v, h => by cases h
  | a :: t, 0, v, _ => rfl
  | a :: t, pos + 1, v, h => by
    have := take_set_succ t pos v (by simpa using h)
    simp [List.set, this]

theorem drop_set_ge : ∀ (l : List Nat) (pos k : Nat) (v : Nat),
    pos < k → (l.set pos v).drop k = l.drop k
  | [], _, _, _, _ => rfl
  | a :: t, 0, k, v, h => by
    obtain ⟨k', rfl⟩ : ∃ k', k = k' + 1 := ⟨k - 1, by omega⟩
    rfl
  | a :: t, pos + 1, k, v, h => by
    obtain ⟨k', rfl⟩ : ∃ k', k = k' + 1 := ⟨k - 1, by omega⟩
    have := drop_set_ge t pos k' v (by omega)
    simp [List.set, this]

theorem hexToBinGo_ret_cases : ∀ (s : List Char) (buf : List Nat) (pos : Nat),
    (hexToBinGo s buf pos).1 = 0 ∨ (hexToBinGo s buf pos).1 = -1
  | [], _, _ => Or.inl rfl
  | [_], _, _ => Or.inr rfl
  | c1 :: c2 :: rest, buf, pos => by
    rw [hexToBinGo]
    cases h1 : hexDigitVal c1 with
    | none => exact Or.inr rfl
    | some h =>
      cases h2 : hexDigitVal c2 with
      | none => exact Or.inr rfl
      | some l =>
        dsimp only
        by_cases hp : pos < buf.length
        · rw [if_pos hp]
          exact hexToBinGo_ret_cases rest _ (pos + 1)
        · rw [if_neg hp]
          exact Or.inr rfl

theorem hexToBinGo_length : ∀ (s : List Char) (buf : List Nat) (pos : Nat),
    (hexToBinGo s buf pos).2.length = buf.length
  | [], _, _ => rfl
  | [_], _, _ => rfl
  | c1 :: c2 :: rest, buf, pos => by
    rw [hexToBinGo]
    cases h1 : hexDigitVal c1 with
    | none => rfl
    | some h =>
      cases h2 : hexDigitVal c2 with
      | none => rfl
      | some l =>
        dsimp only
        by_cases hp : pos < buf.length
        · rw [if_pos hp]
          rw [hexToBinGo_length rest _ (pos + 1), List.length_set]
        · rw [if_neg hp]

theorem hexToBinGo_ret_iff : ∀ (s : List Char) (buf : List Nat) (pos : Nat),
    pos ≤ buf.length →
    ((hexToBinGo s buf pos).1 = 0 ↔
      (s.length % 2 = 0 ∧ (∀ c ∈ s, (hexDigitVal c).isSome) ∧
        pos + s.length / 2 ≤ buf.length))
  | [], buf, pos, hp => by
    simp [hexToBinGo]
    omega
  | [c], buf, pos, hp => by
    simp [hexToBinGo]
  | c1 :: c2 :: rest, buf, pos, hp => by
    rw [hexToBinGo]
    cases h1 : hexDigitVal c1 with
    | none =>
      simp only [List.mem_cons]
      constructor
      · intro h
        cases h
      · rintro ⟨-, hall, -⟩
        have := hall c1 (Or.inl rfl)
        rw [h1] at this
        cases this
    | some h =>
      cases h2 : hexDigitVal c2 with
      | none =>
        simp only [List.mem_cons]
        constructor
        · intro h
          cases h
        · rintro ⟨-, hall, -⟩
          have := hall c2 (Or.inr (Or.inl rfl))
          rw [h2] at this
          cases this
      | some l =>
        dsimp only
        by_cases hlt : pos < buf.length
        · rw [if_pos hlt]
          have ih := hexToBinGo_ret_iff rest (buf.set pos (16 * h + l)) (pos + 1)
            (by rw [List.length_set]; omega)
          rw [List.length_set] at ih
          rw [ih]
          simp only [List.mem_cons, List.length_cons]
          constructor
          · rintro ⟨he, hall, hle⟩
            refine ⟨by omega, ?_, by omega⟩
            rintro c (rfl | rfl | hc)
            · rw [h1]; rfl
            · rw [h2]; rfl
            · exact hall c hc
          · rintro ⟨he, hall, hle⟩
            exact ⟨by omega, fun c hc => hall c (Or.inr (Or.inr hc)), by omega⟩
        · rw [if_neg hlt]
          simp only [List.length_cons]
          constructor
          · intro h
            cases h
          · rintro ⟨-, -, hle⟩
            omega

theorem hexToBinGo_content : ∀ (s : List Char) (buf : List Nat) (pos : Nat)
    (bs : List Nat), hexBytes s = some bs → pos + bs.length ≤ buf.length →
    (hexToBinGo s buf pos).2 = buf.take pos ++ bs ++ buf.drop (pos + bs.length)
  | [], buf, pos, bs, hb, hle => by
    obtain rfl : bs = [] := by simpa [hexBytes] using hb
    simp [hexToBinGo]
  | [c], buf, pos, bs, hb, hle => by
    simp [hexBytes] at hb
  | c1 :: c2 :: rest, buf, pos, bs, hb, hle => by
    rw [hexBytes] at hb
    cases h1 : hexDigitVal c1 with
    | none => rw [h1] at hb; cases hb
    | some h =>
      cases h2 : hexDigitVal c2 with
      | none => rw [h1, h2] at hb; cases hb
      | some l =>
        rw [h1, h2] at hb
        cases hrest : hexBytes rest with
        | none => rw [hrest] at hb; cases hb
        | some bs' =>
          rw [hrest] at hb
          obtain rfl : (16 * h + l) :: bs' = bs := by simpa using hb
          have hlt : pos < buf.length := by
            simp only [List.length_cons] at hle
            omega
          rw [hexToBinGo, h1, h2]
          dsimp only
          rw [if_pos hlt]
          have ih := hexToBinGo_content rest (buf.set pos (16 * h + l)) (pos + 1)
            bs' hrest (by rw [List.length_set]; simp only [List.length_cons] at hle; omega)
          rw [ih, take_set_succ buf pos _ hlt,
            drop_set_ge buf pos (pos + 1 + bs'.length) _ (by omega)]
          simp only [List.length_cons]
          have hpp : pos + (bs'.length + 1) = pos + 1 + bs'.length := by omega
          rw [hpp]
          simp

theorem hexBytes_length : ∀ (s : List Char) (bs : List Nat),
    hexBytes s = some bs → 2 * bs.length = s.length
  | [], bs, h => by
    obtain rfl : bs = [] := by simpa [hexBytes] using h
    rfl
  | [c], bs, h => by simp [hexBytes] at h
  | c1 :: c2 :: rest, bs, h => by
    rw [hexBytes] at h
    cases h1 : hexDigitVal c1 with
    | none => rw [h1] at h; cases h
    | some hv =>
      cases h2 : hexDigitVal c2 with
      | none => rw [h1, h2] at h; cases h
      | some lv =>
        rw [h1, h2] at h
        cases hrest : hexBytes rest with
        | none => rw [hrest] at h; cases h
        | some bs' =>
          rw [hrest] at h
          obtain rfl : (16 * hv + lv) :: bs' = bs := by simpa using h
          have := hexBytes_length rest bs' hrest
          simp only [List.length_cons]
          omega

theorem hexBytes_isSome : ∀ (s : List Char), s.length % 2 = 0 →
    (∀ c ∈ s, (hexDigitVal c).isSome) → (hexBytes s).isSome
  | [], _, _ => rfl
  | [c], he, _ => by simp at he
  | c1 :: c2 :: rest, he, hall => by
    rw [hexBytes]
    obtain ⟨h, h1⟩ := Option.isSome_iff_exists.mp (hall c1 (by simp))
    obtain ⟨l, h2⟩ := Option.isSome_iff_exists.mp (hall c2 (by simp))
    rw [h1, h2]
    have := hexBytes_isSome rest (by simp at he; omega)
      (fun c hc => hall c (by simp [hc]))
    obtain ⟨bs, hbs⟩ := Option.isSome_iff_exists.mp this
    rw [hbs]
    rfl

/-- C10.  `hex_to_bin` returns 0 exactly when the string has even
length, every character is a hex digit and the number of digit pairs is
at most the buffer capacity (so strictly shorter strings than `2 * len`
are accepted — exactly 64 digits is not enforced); the only other return
value is -1 (odd length, non-hex character, or overfull input); the
buffer length never changes (writes only happen at `pos < len`, so there
is no out-of-bounds write); and on success the first pairs of the buffer
hold the digit-pair values in order, the rest untouched. -/
theorem hex_to_bin_spec (hexstr : List Char) (buf : List Nat) :
    ((hex_to_bin hexstr buf).1 = 0 ↔
      (hexstr.length % 2 = 0 ∧ (∀ c ∈ hexstr, (hexDigitVal c).isSome) ∧
        hexstr.length / 2 ≤ buf.length))
    ∧ ((hex_to_bin hexstr buf).1 = 0 ∨ (hex_to_bin hexstr buf).1 = -1)
    ∧ (hex_to_bin hexstr buf).2.length = buf.length
    ∧ ((hex_to_bin hexstr buf).1 = 0 → (hexBytes hexstr).isSome)
    ∧ (∀ bs, hexBytes hexstr = some bs → (hex_to_bin hexstr buf).1 = 0 →
        (hex_to_bin hexstr buf).2 = bs ++ buf.drop bs.length) := by
  have hiff := hexToBinGo_ret_iff hexstr buf 0 (by omega)
  refine ⟨by simpa [hex_to_bin] using hiff, hexToBinGo_ret_cases hexstr buf 0,
    hexToBinGo_length hexstr buf 0, ?_, ?_⟩
  · intro h0
    obtain ⟨he, hall, -⟩ := hiff.mp h0
    exact hexBytes_isSome hexstr he hall
  · intro bs hbs h0
    obtain ⟨-, -, hle⟩ := hiff.mp h0
    have hlen := hexBytes_length hexstr bs hbs
    have := hexToBinGo_content hexstr buf 0 bs hbs (by omega)
    simpa [hex_to_bin] using this

/-- Witness for C10: `"3aF0"` (four hex digits) into a two-byte buffer
succeeds and writes `[0x3a, 0xF0]`. -/
theorem hex_to_bin_spec_witness :
    hex_to_bin ['3', 'a', 'F', '0'] [0, 0] = (0, [58, 240]) := by
  have h := (hex_to_bin_spec ['3', 'a', 'F', '0'] [0, 0]).2.2.2.2 [58, 240]
    (by decide) (by decide)
  have h0 : (hex_to_bin ['3', 'a', 'F', '0'] [0, 0]).1 = 0 := by decide
  exact Prod.ext_iff.mpr ⟨h0, by simpa using h⟩

end Rrdp
